import Mathlib

/-!
Verification of the djapian indexing/query core (`src/djapian/indexer.py`)
against its natural-language specification.

The Python source is shallowly embedded below.  Python strings are modelled
as Lean `String` restricted to ASCII; the handful of string primitives the
source uses (`split`, `startswith`, slicing, `upper`, `lower`, `islower`,
`join`, `%`-formatting) are re-implemented here on `List Char` so that every
definition is executable and kernel-reducible.  Machine integers do not
occur: all Python ints in play are unbounded (`int`/`long`), modelled as
`Int`/`Nat`.  Python exceptions are modelled with `Except`.
-/

/-- Lexicographic-by-characters list of the decimal digit characters of `n`,
zero-padded/truncated to exactly `L` positions.  `digitsAux L n` is the
digit string of `n` written in `L` positions (valid when `n < 10 ^ L`);
it models the output of Python `'%0Ld' % n` for in-range `n`. -/
def digitsAux : Nat → Nat → List Char
  | 0, _ => []
  | L + 1, n => Char.ofNat (48 + n / 10 ^ L) :: digitsAux L (n % 10 ^ L)

/-- Fuel-driven decimal digit count; `numDigitsAux (fuel+1) n` is the number
of decimal digits of `n` whenever `n ≤ fuel + 1`. -/
def numDigitsAux : Nat → Nat → Nat
  | 0, _ => 0
  | fuel + 1, n => if n < 10 then 1 else numDigitsAux fuel (n / 10) + 1

/-- Number of decimal digits of `n` (`numDigits 0 = 1`). -/
def numDigits (n : Nat) : Nat := numDigitsAux (n + 1) n

/-- Unpadded decimal digit characters of `n`, as Python `str(n)` renders a
non-negative integer. -/
def natDigits (n : Nat) : List Char := digitsAux (numDigits n) n

/-- Python `str.split('.')`: auxiliary accumulator recursion over characters. -/
def splitAux : List Char → List Char → List String
  | [], acc => [String.mk acc.reverse]
  | c :: rest, acc =>
    if c = '.' then String.mk acc.reverse :: splitAux rest [] else splitAux rest (c :: acc)

/-- Python `s.split('.')` (`indexer.py:65` and `indexer.py:34`). -/
def splitDots (s : String) : List String := splitAux s.data []

/-- Boolean character-list prefix test (model of Python `str.startswith`). -/
def isPrefixCL : List Char → List Char → Bool
  | [], _ => true
  | _ :: _, [] => false
  | a :: as, b :: bs => a = b && isPrefixCL as bs

/-- Python `s.startswith(p)`. -/
def strStartsWith (s p : String) : Bool := isPrefixCL p.data s.data

/-- Python `s[n:]` (drop the first `n` characters). -/
def strDrop (s : String) (n : Nat) : String := String.mk (s.data.drop n)

/-- Python `s.upper()` (ASCII). -/
def strUpper (s : String) : String := String.mk (s.data.map Char.toUpper)

/-- Python `s.lower()` (ASCII). -/
def strLower (s : String) : String := String.mk (s.data.map Char.toLower)

/-- Python `s.islower()` restricted to ASCII: at least one cased character
and no uppercase character. -/
def pyIsLower (s : String) : Bool :=
  s.data.any (fun c => c.isAlpha) && !(s.data.any (fun c => c.isUpper))

/-- Python `sep.join(parts)`. -/
def joinWith (sep : String) : List String → String
  | [] => ""
  | [x] => x
  | x :: y :: rest => x ++ sep ++ joinWith sep (y :: rest)

/-- First-occurrence de-duplication with an accumulator of seen elements;
models the effect of Python `set(...)` on membership (iteration order of a
Python set is unspecified; the model fixes first-occurrence order). -/
def dedupAux : List String → List String → List String
  | [], _ => []
  | x :: rest, seen =>
    if seen.contains x then dedupAux rest seen else x :: dedupAux rest (x :: seen)

/-- De-duplicate a token list, keeping first occurrences. -/
def dedupFirst (l : List String) : List String := dedupAux l []

/-- Python `'%012d' % n` (`indexer.py:44`): decimal digits zero-padded on the
left to a minimum total width of 12 (sign included for negatives; wider
numbers are not truncated). -/
def pyFormat012 (i : Int) : String :=
  if i < 0 then
    String.mk ('-' :: (List.replicate (11 - (natDigits i.natAbs).length) '0' ++ natDigits i.natAbs))
  else
    String.mk (List.replicate (12 - (natDigits i.natAbs).length) '0' ++ natDigits i.natAbs)

/-- Python `'%.10f' % x` for a non-negative value (`indexer.py:60`), with the
float modelled exactly by its integer part `ip` and its first ten decimal
places `fr` (`fr < 10^10`): the integer part is rendered unpadded, followed
by `'.'` and exactly ten fractional digits. -/
def pyFormatF10 (ip fr : Nat) : String :=
  String.mk (natDigits ip ++ ('.' :: digitsAux 10 fr))

/-- Python `'%.10f' % n` applied to an integer-kind value. -/
def intAsF10 (n : Int) : String :=
  if n < 0 then "-" ++ pyFormatF10 n.natAbs 0 else pyFormatF10 n.natAbs 0

/-- Naive datetime value (what `datetime.datetime` carries, to second
precision, as used by `strftime('%Y%m%d%H%M%S')`). -/
structure PyDateTime where
  year : Nat
  month : Nat
  day : Nat
  hour : Nat
  minute : Nat
  second : Nat
deriving DecidableEq

/-- Python `value.strftime('%Y%m%d%H%M%S')` (`indexer.py:58`): unpadded year
(always four digits for the years `datetime.strftime` accepts) followed by
two-digit zero-padded month, day, hour, minute, second. -/
def dtFormat (dt : PyDateTime) : String :=
  String.mk (natDigits dt.year ++ (digitsAux 2 dt.month ++ (digitsAux 2 dt.day ++
    (digitsAux 2 dt.hour ++ (digitsAux 2 dt.minute ++ digitsAux 2 dt.second)))))

/-- Runtime Python values reaching `Field.resolve` / `Field.convert`.
`vModel` is a Django model instance (its `smart_unicode` rendering plus its
attribute dictionary); `vPlain` is any other attribute-bearing object that is
not of a recognized kind; `vCallable` is a zero-argument callable returning
its payload; `vManager` is a Django related-objects manager; floats are
modelled by their exact decimal rendering `(ip, fr)` at ten places. -/
inductive PyVal where
  | vStr : String → PyVal
  | vInt : Int → PyVal
  | vFloat : Nat → Nat → PyVal
  | vBool : Bool → PyVal
  | vDateTime : PyDateTime → PyVal
  | vModel : String → List (String × PyVal) → PyVal
  | vPlain : List (String × PyVal) → PyVal
  | vList : List PyVal → PyVal
  | vCallable : PyVal → PyVal
  | vManager : List PyVal → PyVal
  | vNone : PyVal

/-- Python truthiness (`if field_value:` at `indexer.py:49`). -/
def pyTruthy : PyVal → Bool
  | .vStr s => s ≠ ""
  | .vInt n => n ≠ 0
  | .vFloat ip fr => ip ≠ 0 || fr ≠ 0
  | .vBool b => b
  | .vDateTime _ => true
  | .vModel _ _ => true
  | .vPlain _ => true
  | .vList xs => !xs.isEmpty
  | .vCallable _ => true
  | .vManager _ => true
  | .vNone => false

/-- Django `smart_unicode` restricted to the values the write path feeds it.
Model instances render as their stored unicode name; containers never reach
this function on the paths modelled here. -/
def smartUnicode : PyVal → String
  | .vStr s => s
  | .vInt n => if n < 0 then "-" ++ String.mk (natDigits n.natAbs) else String.mk (natDigits n.natAbs)
  | .vFloat ip fr => pyFormatF10 ip fr
  | .vBool b => if b then "True" else "False"
  | .vDateTime dt => dtFormat dt
  | .vModel u _ => u
  | .vPlain _ => "object"
  | .vList _ => "list"
  | .vCallable _ => "callable"
  | .vManager _ => "manager"
  | .vNone => "None"

/-- Django model-field kinds distinguished by `Field.convert`
(`indexer.py:40-59`); every other field class is `otherField`. -/
inductive MFT where
  | integerField
  | booleanField
  | dateTimeField
  | floatField
  | otherField
deriving DecidableEq

/-- The `content_type` computed at `indexer.py:33-36`: the model field named
by the first path segment when it exists (`some`), otherwise the field value
itself stands in (`FieldDoesNotExist` branch, modelled by `none`). -/
def contentTypeOf (modelTypes : List (String × MFT)) (pathHead : String) : Option MFT :=
  List.lookup pathHead modelTypes

/-- First segment of a dotted path (`self.path.split('.', 1)[0]`). -/
def pathHead (path : String) : String := (splitDots path).headD path

/-- Python `isinstance(content_type, (models.IntegerField, int, long))`;
note that a raw `bool` value satisfies `isinstance(_, int)` in Python. -/
def ctIntLike : Option MFT → PyVal → Bool
  | some .integerField, _ => true
  | some _, _ => false
  | none, .vInt _ => true
  | none, .vBool _ => true
  | none, _ => false

/-- Python `isinstance(content_type, (models.BooleanField, bool))`. -/
def ctBoolLike : Option MFT → PyVal → Bool
  | some .booleanField, _ => true
  | some _, _ => false
  | none, .vBool _ => true
  | none, _ => false

/-- Python `isinstance(content_type, (models.DateTimeField, datetime.datetime))`. -/
def ctDateTimeLike : Option MFT → PyVal → Bool
  | some .dateTimeField, _ => true
  | some _, _ => false
  | none, .vDateTime _ => true
  | none, _ => false

/-- Python `isinstance(content_type, (float, models.FloatField))`. -/
def ctFloatLike : Option MFT → PyVal → Bool
  | some .floatField, _ => true
  | some _, _ => false
  | none, .vFloat _ _ => true
  | none, _ => false

/-- Coercion a Python `%d` conversion performs: ints themselves, bools as
0/1, floats truncated; anything else raises `TypeError`. -/
def pyIntOf : PyVal → Option Int
  | .vInt n => some n
  | .vBool b => some (if b then 1 else 0)
  | .vFloat ip _ => some (Int.ofNat ip)
  | _ => none

/-- Model of `Field.convert` (`indexer.py:28-62`): generates the index value
(for sorting) for a field value given the owning model's field types.
Integer-like content renders as `'%012d'`; boolean fields as `'t'`/`'f'` by
truthiness; datetimes as `'%Y%m%d%H%M%S'`; floats as `'%.10f'`; everything
else passes through unchanged.  An `Except.error` is a Python exception
(`TypeError` from `%`-formatting, `AttributeError` from `.strftime` on a
non-datetime). -/
def convert (modelTypes : List (String × MFT)) (path : String) (v : PyVal) : Except Unit PyVal :=
  let ct := contentTypeOf modelTypes (pathHead path)
  if ctIntLike ct v then
    match pyIntOf v with
    | some n => .ok (.vStr (pyFormat012 n))
    | none => .error ()
  else if ctBoolLike ct v then
    .ok (.vStr (if pyTruthy v then "t" else "f"))
  else if ctDateTimeLike ct v then
    match v with
    | .vDateTime dt => .ok (.vStr (dtFormat dt))
    | _ => .error ()
  else if ctFloatLike ct v then
    match v with
    | .vFloat ip fr => .ok (.vStr (pyFormatF10 ip fr))
    | v2 =>
      match pyIntOf v2 with
      | some n => .ok (.vStr (intAsF10 n))
      | none => .error ()
  else
    .ok v

/-- Exceptions `Field.resolve` can raise: `AttributeError` from `getattr`,
`TypeError` from `', '.join` over non-string elements. -/
inductive ResolveErr where
  | attrMissing
  | typeError
deriving DecidableEq

/-- Python `getattr(value, bit)` (`indexer.py:69`): attribute dictionaries
exist on model instances and plain objects; every other value has no indexed
attributes in this model. -/
def pyGetattr : PyVal → String → Option PyVal
  | .vModel _ attrs, name => List.lookup name attrs
  | .vPlain attrs, name => List.lookup name attrs
  | _, _ => none

/-- Python `if callable(value): value = value()` (`indexer.py:73-77`). -/
def callStep : PyVal → PyVal
  | .vCallable r => r
  | v => v

/-- The attribute-walking loop of `Field.resolve` (`indexer.py:67-77`):
fetch each path segment in turn, calling any intermediate callable. -/
def walkPath : List String → PyVal → Except ResolveErr PyVal
  | [], v => .ok v
  | bit :: rest, v =>
    match pyGetattr v bit with
    | none => .error .attrMissing
    | some v1 => walkPath rest (callStep v1)

/-- Extract the string payload of a value (Python `', '.join` accepts only
strings; a non-string element raises `TypeError`). -/
def strOf : PyVal → Option String
  | .vStr s => some s
  | _ => none

/-- Collect the string payloads of an iterable's elements; `none` as soon
as some element is not a string. -/
def mapStrs : List PyVal → Option (List String)
  | [] => some []
  | x :: rest =>
    match strOf x, mapStrs rest with
    | some s, some ss => some (s :: ss)
    | _, _ => none

/-- Python `', '.join(value)` over an iterable of values. -/
def joinStrs (xs : List PyVal) : Option String :=
  (mapStrs xs).map (joinWith ", ")

/-- The result classification of `Field.resolve` (`indexer.py:79-85`):
recognized raw kinds are returned as-is; iterables are comma-joined (raising
`TypeError` on non-string elements); managers are comma-joined over their
object list; anything else resolves to Python `None`. -/
def classifyValue : PyVal → Except ResolveErr PyVal
  | .vStr s => .ok (.vStr s)
  | .vInt n => .ok (.vInt n)
  | .vFloat ip fr => .ok (.vFloat ip fr)
  | .vBool b => .ok (.vBool b)
  | .vDateTime dt => .ok (.vDateTime dt)
  | .vModel u attrs => .ok (.vModel u attrs)
  | .vList xs =>
    match joinStrs xs with
    | some s => .ok (.vStr s)
    | none => .error .typeError
  | .vManager xs =>
    match joinStrs xs with
    | some s => .ok (.vStr s)
    | none => .error .typeError
  | .vPlain _ => .ok .vNone
  | .vCallable _ => .ok .vNone
  | .vNone => .ok .vNone

/-- One indexed field: attribute path, search weight, tag prefix (empty for
free-text fields) and value-slot number (`Field.__init__`, `indexer.py:19-23`). -/
structure FieldSpec where
  path : String
  weight : Nat
  pref : String
  number : Option Nat
deriving DecidableEq

/-- Model of `Field.resolve` (`indexer.py:64-85`). -/
def resolveField (f : FieldSpec) (obj : PyVal) : Except ResolveErr PyVal :=
  match walkPath (splitDots f.path) obj with
  | .ok v => classifyValue v
  | .error e => .error e

/-- Model of an `Indexer` instance after `__init__` (`indexer.py:114-158`):
the owned model's name and field types, the indexer descriptor, the parsed
free-text fields and prefixed tag fields, the validated alias table and the
trigger predicate. -/
structure IndexerModel where
  modelName : String
  descriptor : String
  modelTypes : List (String × MFT)
  fields : List FieldSpec
  tags : List FieldSpec
  aliases : List (String × List String)
  trigger : PyVal → Bool

/-- The tag-parsing loop of `Indexer.__init__` (`indexer.py:137-147`): each
`(tag, path, weight)` declaration becomes a prefixed `FieldSpec` whose value
slot is assigned sequentially from `free_values_start_number = 11`. -/
def initTags (decls : List (String × String × Nat)) : List FieldSpec :=
  decls.enum.map (fun p =>
    { path := p.2.2.1, weight := p.2.2.2, pref := p.2.1, number := some (11 + p.1) })

/-- Model of `Indexer.tag_index` (`indexer.py:167-172`): the value-slot
number of the first tag field whose prefix equals `name`; `none` when no tag
matches.  It returns normally in every case — it never raises. -/
def tagIndex (tags : List FieldSpec) (name : String) : Option Nat :=
  match tags.find? (fun f => f.pref == name) with
  | some f => f.number
  | none => none

/-- Model of `Indexer.has_tag` (`indexer.py:164-165`). -/
def hasTag (tags : List FieldSpec) (name : String) : Bool :=
  (tagIndex tags name).isSome

/-- The alias-validation loop of `Indexer.__init__` (`indexer.py:149-155`):
each declared alias entry is kept when its tag exists, and a `ValueError` is
raised for an alias of a non-existent tag. -/
def checkAliases (tags : List FieldSpec) :
    List (String × List String) → Except String (List (String × List String))
  | [] => .ok []
  | (t, as) :: rest =>
    if hasTag tags t then
      (checkAliases tags rest).map (fun r => (t, as) :: r)
    else
      .error ("Cannot create alias for tag " ++ t ++ " that does not exist")

/-- The prefix registrations `_parse_query` installs on the query parser
(`indexer.py:452-456`): for every tag field, its lowercased prefix maps to
`field.get_tag()` (the uppercased prefix), and every alias registered for
that prefix maps to the same tag. -/
def registeredPrefixes (tags : List FieldSpec) (aliases : List (String × List String)) :
    List (String × String) :=
  tags.flatMap (fun f =>
    (strLower f.pref, strUpper f.pref) ::
      (match List.lookup f.pref aliases with
       | some as => as.map (fun a => (a, strUpper f.pref))
       | none => []))

/-- Sort request handed to the engine by `_do_search`:
`set_sort_by_relevance` or `set_sort_by_relevance_then_value(valueno, flag)`
(`indexer.py:393-409`).  The `valueThenRelevance` form
(`set_sort_by_value_then_relevance`) is never produced by the code; it exists
so the specification's description of the sort can be stated and compared. -/
inductive SortSpec where
  | byRelevance : SortSpec
  | relevanceThenValue : Option Nat → Bool → SortSpec
  | valueThenRelevance : Option Nat → Bool → SortSpec
deriving DecidableEq

/-- Exceptions the sort-resolution code can raise before the query runs. -/
inductive SortErr where
  | indexError
  | valueError
deriving DecidableEq

/-- Model of the `order_by` translation in `Indexer._do_search`
(`indexer.py:393-409`).  `None` and `'RELEVANCE'` select relevance ranking;
otherwise an optional leading `+`/`-` fixes the boolean flag (the code names
it `ascending`) and is stripped, and `tag_index` is consulted inside a
`try/except (ValueError, TypeError)` block.  Since `tag_index` only ever
returns (possibly `None`) and never raises, the handler — and with it the
coded `raise ValueError` for unknown fields — is unreachable, and the
possibly-`None` slot is passed to `set_sort_by_relevance_then_value`.
An empty `order_by` string raises `IndexError` at `order_by[0]`. -/
def resolveOrderBy (tags : List FieldSpec) : Option String → Except SortErr SortSpec
  | none => .ok .byRelevance
  | some s =>
    if s = "RELEVANCE" then .ok .byRelevance
    else
      match s.data with
      | [] => .error .indexError
      | c :: rest =>
        let ascending := !(strStartsWith s "-")
        let name := if c = '+' || c = '-' then String.mk rest else s
        .ok (.relevanceThenValue (tagIndex tags name) ascending)

/-- Sort translation as the specification words it (spec §4.3): `relevance`
or `None` uses the engine's default ranking; a named tag field sorts
primarily by that field's value slot with relevance as the secondary
tie-break (`valueThenRelevance`), and an unknown field name raises a
configuration error before the query executes.  Stated only for comparison
with `resolveOrderBy`, which embeds the code. -/
def specOrderBySort (tags : List FieldSpec) : Option String → Except SortErr SortSpec
  | none => .ok .byRelevance
  | some s =>
    if s = "RELEVANCE" then .ok .byRelevance
    else
      match s.data with
      | [] => .error .indexError
      | c :: rest =>
        let ascending := !(strStartsWith s "-")
        let name := if c = '+' || c = '-' then String.mk rest else s
        match tagIndex tags name with
        | some v => .ok (.valueThenRelevance (some v) ascending)
        | none => .error .valueError

/-- Model of `Indexer._get_stem_language` (`indexer.py:428-443`).
`settingsLang` is `getattr(settings, 'DJAPIAN_STEMMING_LANG', 'none')`.
`objLang` is `none` when no object is passed; otherwise
`some (accessor resolution result)`, where the inner `none` is an
`AttributeError` from the accessor — in that case the `except ... pass`
leaves the language at the literal string `"multi"`. -/
def getStemLang (settingsLang : String) (objLang : Option (Option String)) : String :=
  if settingsLang = "multi" then
    match objLang with
    | some (some lang) => lang
    | some none => "multi"
    | none => "none"
  else settingsLang

/-- The stemming-language choice in `Indexer._parse_query`
(`indexer.py:461-462`): an explicit argument of `None` or `"none"` falls
back to `_get_stem_language()` called without an object; any other explicit
argument is used as-is. -/
def chooseQueryStemLang (stemmingLang : Option String) (settingsLang : String) : String :=
  match stemmingLang with
  | none => getStemLang settingsLang none
  | some s => if s = "none" then getStemLang settingsLang none else s

/-- Whether `_parse_query` installs a stemmer (`indexer.py:464-466`): any
Python-truthy language string — including the literal `"none"` — is passed
to `xapian.Stem`. -/
def stemmerApplied (lang : String) : Bool := !(lang == "")

/-- The expansion-term count requested from `enquire.get_eset` by
`Indexer._do_related` (`indexer.py:357-361`): the match count raised to at
least 10 and capped at 40. -/
def esetRequestCount (matchCount : Nat) : Nat :=
  let count := if matchCount < 10 then 10 else matchCount
  if count > 40 then 40 else count

/-- The uppercased tag strings `_do_related` compares terms against
(`field.get_tag()` for each tag field). -/
def tagStrings (tags : List FieldSpec) : List String :=
  tags.map (fun f => strUpper f.pref)

/-- The inner tag loop of `Indexer._do_related` (`indexer.py:372-376`) for
one non-lowercase term: the loop variable `term` is re-bound after each
strip, so every tag whose string prefixes the *current* remainder strips it
and appends the new remainder; the loop does not break after a match. -/
def stripTagsLoop (tags : List String) (term : String) : List String × String :=
  tags.foldl
    (fun acc tag =>
      if strStartsWith acc.2 tag then
        ((acc.1 ++ [strDrop acc.2 tag.length]), strDrop acc.2 tag.length)
      else acc)
    ([], term)

/-- Recursive restatement of the cascaded stripping done by
`stripTagsLoop`: the successive remainders produced as each matching tag
strips its prefix from the current remainder. -/
def cascadeStrips : List String → String → List String
  | [], _ => []
  | tag :: rest, t =>
    if strStartsWith t tag then
      strDrop t tag.length :: cascadeStrips rest (strDrop t tag.length)
    else cascadeStrips rest t

/-- The term-partitioning loop of `Indexer._do_related`
(`indexer.py:368-376`): lowercase terms are kept verbatim; every other term
goes through the tag-stripping loop. -/
def relatedTokens (tags : List String) (qterms : List String) : List String :=
  qterms.foldl
    (fun q t => if pyIsLower t then q ++ [t] else q ++ (stripTagsLoop tags t).1)
    []

/-- The final query string built by `_do_related` (`indexer.py:378-380`):
the de-duplicated tokens joined with `' OR '`. -/
def relatedQuery (tags : List String) (qterms : List String) : String :=
  joinWith " OR " (dedupFirst (relatedTokens tags qterms))

/-- Term partitioning as the specification words it (spec §4.5): a
non-lowercase term has the known prefix of a matching tag stripped and the
stripped token is kept exactly when the term starts with some tag's prefix.
Stated only for comparison with `relatedTokens`, which embeds the code. -/
def specRelatedTokens (tags : List String) (qterms : List String) : List String :=
  qterms.flatMap (fun t =>
    if pyIsLower t then [t]
    else
      match tags.find? (fun tag => strStartsWith t tag) with
      | some tag => [strDrop t tag.length]
      | none => [])

/-- The metadata value list of `Indexer._get_meta_values`
(`indexer.py:327-332`): primary key, model name, indexer descriptor (the
primary key is taken already rendered by `smart_unicode`). -/
def metaValuesList (idx : IndexerModel) (pk : String) : List String :=
  [pk, idx.modelName, idx.descriptor]

/-- Model of `Indexer._create_uid` (`indexer.py:341-345`):
`"UID-" + "-".join(meta values)`. -/
def uidOf (idx : IndexerModel) (pk : String) : String :=
  "UID-" ++ joinWith "-" (metaValuesList idx pk)

/-- An engine document as the write path builds it: term postings added
directly (`add_term`), value slots (`add_value`), and the text/weight/prefix
triples fed to the term generator (`index_text`). -/
structure Doc where
  terms : List String
  values : List (Nat × String)
  postings : List (String × Nat × String)
deriving DecidableEq

/-- Slots 1-3 written by `_insert_meta_values` (`indexer.py:334-338`). -/
def metaValues (idx : IndexerModel) (pk : String) : List (Nat × String) :=
  ((metaValuesList idx pk).enum.map (fun p => (p.1 + 1, p.2)))

/-- Append one value slot (`doc.add_value`). -/
def addValueSlot (doc : Doc) (n : Nat) (s : String) : Doc :=
  { doc with values := doc.values ++ [(n, s)] }

/-- Append one term-generator posting (`generator.index_text`). -/
def addPosting (doc : Doc) (text : String) (w : Nat) (pre : String) : Doc :=
  { doc with postings := doc.postings ++ [(text, w, pre)] }

/-- The per-field body of the update loop (`indexer.py:252-267`): resolve the
value, skipping the field on `AttributeError`; for a prefixed field, convert
the value and store it in the field's value slot unless it converted to
`None`; then index the text under the field's tag and, when the tag is
non-empty, once more without a prefix.  Any other exception propagates and
aborts the record. -/
def indexField (modelTypes : List (String × MFT)) (obj : PyVal) (doc : Doc) (f : FieldSpec) :
    Except Unit Doc :=
  match resolveField f obj with
  | .error .attrMissing => .ok doc
  | .error .typeError => .error ()
  | .ok v =>
    let step1 : Except Unit Doc :=
      if f.pref ≠ "" then
        match convert modelTypes f.path v with
        | .error e => .error e
        | .ok cv =>
          .ok (match cv with
               | .vNone => doc
               | cv2 => addValueSlot doc (f.number.getD 0) (smartUnicode cv2))
      else .ok doc
    match step1 with
    | .error e => .error e
    | .ok d1 =>
      let tagStr := strUpper f.pref
      let d2 := addPosting d1 (smartUnicode v) f.weight tagStr
      .ok (if tagStr ≠ "" then addPosting d2 (smartUnicode v) f.weight "" else d2)

/-- Document construction for one record (`indexer.py:235-267`): the UID
identity term, metadata slots 1-3, then every free-text field followed by
every tag field. -/
def buildDoc (idx : IndexerModel) (pk : String) (obj : PyVal) : Except Unit Doc :=
  (idx.fields ++ idx.tags).foldlM (indexField idx.modelTypes obj)
    { terms := [uidOf idx pk], values := metaValues idx pk, postings := [] }

/-- The index database as the write path observes it: the document stored
under each identity term (Xapian `replace_document` keyed by the UID term). -/
def DB := String → Option Doc

/-- Net effect of processing one record in the update loop
(`indexer.py:227-277`): a falsy trigger deletes the record's document
(`some none`); a successful build replaces it (`some (some doc)`); a failed
build is cancelled and leaves the database untouched (`none`). -/
def recEffect (idx : IndexerModel) (pk : String) (obj : PyVal) : Option (Option Doc) :=
  if idx.trigger obj then
    match buildDoc idx pk obj with
    | .ok d => some (some d)
    | .error _ => none
  else some none

/-- One iteration of the update loop applied to the database. -/
def updateStep (idx : IndexerModel) (db : DB) (r : String × PyVal) : DB :=
  match recEffect idx r.1 r.2 with
  | some e => fun k => if k = uidOf idx r.1 then e else db k
  | none => db

/-- Model of `Indexer.update` over an explicit record queue
(`indexer.py:180-288`): the records are processed in order, each via
`updateStep`.  Transaction wrappers and flush policy do not change the final
stored contents and are not represented. -/
def updateRun (idx : IndexerModel) (db : DB) (rs : List (String × PyVal)) : DB :=
  rs.foldl (updateStep idx) db

/-- The last database effect some record of `rs` has on key `k`, later
records overriding earlier ones; `none` when no record of `rs` touches `k`. -/
def lastEffect (idx : IndexerModel) : List (String × PyVal) → String → Option (Option Doc)
  | [], _ => none
  | r :: rs, k =>
    match lastEffect idx rs k with
    | some e => some e
    | none => if k = uidOf idx r.1 then recEffect idx r.1 r.2 else none

/-- Number of documents present among a list of candidate identity terms;
`document_count` restricted to any finite enumeration of UIDs. -/
def countOn (db : DB) (ks : List String) : Nat :=
  (ks.filter (fun k => (db k).isSome)).length

/-- Bounds under which `strftime('%Y%m%d%H%M%S')` is fixed-width: four-digit
year (Python 2 `strftime` already rejects years before 1900), two-digit
month, day, hour, minute and second. -/
def dtBounds (dt : PyDateTime) : Prop :=
  1000 ≤ dt.year ∧ dt.year < 10000 ∧ dt.month < 100 ∧ dt.day < 100 ∧
    dt.hour < 100 ∧ dt.minute < 100 ∧ dt.second < 100

/-- Chronological (componentwise lexicographic) strict order on datetimes. -/
def dtLexLt (a b : PyDateTime) : Prop :=
  a.year < b.year ∨ (a.year = b.year ∧ (a.month < b.month ∨ (a.month = b.month ∧
    (a.day < b.day ∨ (a.day = b.day ∧ (a.hour < b.hour ∨ (a.hour = b.hour ∧
      (a.minute < b.minute ∨ (a.minute = b.minute ∧ a.second < b.second)))))))))

/-- Concrete tag declarations used in witnesses: the `author` and `title`
tags of the `EntryIndexer` in `tests/utils.py`, occupying slots 11 and 12. -/
def exTags : List FieldSpec :=
  initTags [("author", "author.name", 1), ("title", "title", 3)]

/-- Concrete tag declarations whose uppercase tag strings are `AUTHOR` and
`DATE`. -/
def exTags5 : List FieldSpec :=
  initTags [("author", "author.name", 1), ("date", "created_on", 1)]

/-- Concrete indexer whose trigger rejects every record. -/
def exIdx9 : IndexerModel :=
  { modelName := "djapian.entry", descriptor := "tests.entryindexer",
    modelTypes := [], fields := [], tags := [], aliases := [],
    trigger := fun _ => false }

/-- Concrete stored document used in witnesses. -/
def exDoc : Doc :=
  { terms := ["UID-1-djapian.entry-tests.entryindexer"], values := [], postings := [] }

/-- Concrete database holding exactly the document of record `1`. -/
def exDb : DB := fun k => if k = uidOf exIdx9 "1" then some exDoc else none

/-- Every fixed-width digit rendering has exactly its width many characters. -/
theorem digitsAux_length : ∀ (L n : Nat), (digitsAux L n).length = L := by
  intro L
  induction L with
  | zero => intro n; rfl
  | succ L ih => intro n; simp [digitsAux, ih]

/-- Ordering of decimal digit characters mirrors ordering of the digits. -/
theorem digitCharLt : ∀ d1, d1 < 10 → ∀ d2, d2 < 10 →
    (Char.ofNat (48 + d1) < Char.ofNat (48 + d2) ↔ d1 < d2) := by decide

/-- Fixed-width decimal renderings of naturals compare lexicographically the
way the numbers compare, for numbers within the width. -/
theorem digitsAux_lex (L : Nat) : ∀ n1 n2 : Nat, n1 < n2 → n2 < 10 ^ L →
    List.Lex (· < ·) (digitsAux L n1) (digitsAux L n2) := by
  induction L with
  | zero =>
    intro n1 n2 h12 h2
    simp only [pow_zero] at h2
    omega
  | succ L ih =>
    intro n1 n2 h12 h2
    have hpow : 0 < 10 ^ L := pow_pos (by norm_num) L
    have hd : n1 / 10 ^ L ≤ n2 / 10 ^ L := Nat.div_le_div_right (Nat.le_of_lt h12)
    have hd2 : n2 / 10 ^ L < 10 := by
      apply Nat.div_lt_of_lt_mul
      calc n2 < 10 ^ (L + 1) := h2
        _ = 10 ^ L * 10 := pow_succ 10 L
    rcases Nat.lt_or_ge (n1 / 10 ^ L) (n2 / 10 ^ L) with hlt | hge
    · exact List.Lex.rel
        ((digitCharLt _ (lt_of_le_of_lt hd hd2) _ hd2).mpr hlt)
    · have heq : n1 / 10 ^ L = n2 / 10 ^ L := Nat.le_antisymm hd hge
      have e1 := Nat.div_add_mod n1 (10 ^ L)
      have e2 := Nat.div_add_mod n2 (10 ^ L)
      rw [heq] at e1
      have hr : n1 % 10 ^ L < n2 % 10 ^ L := by omega
      have hr2 : n2 % 10 ^ L < 10 ^ L := Nat.mod_lt _ hpow
      show List.Lex (· < ·)
        (Char.ofNat (48 + n1 / 10 ^ L) :: digitsAux L (n1 % 10 ^ L))
        (Char.ofNat (48 + n2 / 10 ^ L) :: digitsAux L (n2 % 10 ^ L))
      rw [heq]
      exact List.Lex.cons (ih _ _ hr hr2)

/-- Widening a fixed-width decimal rendering only prepends zero characters. -/
theorem digitsAux_pad : ∀ (L k n : Nat), k ≤ L → n < 10 ^ k →
    digitsAux L n = List.replicate (L - k) '0' ++ digitsAux k n := by
  intro L
  induction L with
  | zero =>
    intro k n hk _
    have : k = 0 := Nat.le_zero.mp hk
    subst this
    rfl
  | succ L ih =>
    intro k n hk hn
    rcases Nat.eq_or_lt_of_le hk with heq | hlt
    · subst heq
      simp
    · have hkL : k ≤ L := Nat.lt_succ_iff.mp hlt
      have hnL : n < 10 ^ L := lt_of_lt_of_le hn (Nat.pow_le_pow_right (by norm_num) hkL)
      have hdiv : n / 10 ^ L = 0 := Nat.div_eq_of_lt hnL
      have hmod : n % 10 ^ L = n := Nat.mod_eq_of_lt hnL
      show Char.ofNat (48 + n / 10 ^ L) :: digitsAux L (n % 10 ^ L) = _
      rw [hdiv, hmod, ih k n hkL hn]
      have hsub : L + 1 - k = (L - k) + 1 := by omega
      rw [hsub, List.replicate_succ]
      rfl

/-- Characterization of the fuel-driven digit count: it is positive, the
number is below `10 ^ count`, and (for nonzero numbers) at least
`10 ^ (count - 1)`. -/
theorem numDigitsAux_spec : ∀ n f : Nat, n ≤ f →
    0 < numDigitsAux (f + 1) n ∧ n < 10 ^ numDigitsAux (f + 1) n ∧
      (n ≠ 0 → 10 ^ (numDigitsAux (f + 1) n - 1) ≤ n) := by
  intro n
  induction n using Nat.strong_induction_on with
  | _ n ih =>
    intro f hnf
    by_cases h10 : n < 10
    · rw [show numDigitsAux (f + 1) n = 1 by simp [numDigitsAux, h10]]
      refine ⟨by omega, by simpa using h10, fun h0 => ?_⟩
      have h1n : 1 ≤ n := Nat.one_le_iff_ne_zero.mpr h0
      simpa using h1n
    · push_neg at h10
      obtain ⟨f2, rfl⟩ : ∃ f2, f = f2 + 1 := ⟨f - 1, by omega⟩
      have hrec : numDigitsAux (f2 + 1 + 1) n = numDigitsAux (f2 + 1) (n / 10) + 1 := by
        have : ¬ n < 10 := by omega
        simp [numDigitsAux, this]
      have hlt : n / 10 < n := Nat.div_lt_self (by omega) (by norm_num)
      have hle : n / 10 ≤ f2 := by omega
      obtain ⟨h1, h2, h3⟩ := ih (n / 10) hlt f2 hle
      refine ⟨by omega, ?_, ?_⟩
      · rw [hrec]
        have hstep : n / 10 + 1 ≤ 10 ^ numDigitsAux (f2 + 1) (n / 10) := h2
        calc n < 10 * (n / 10) + 10 := by omega
          _ = 10 * (n / 10 + 1) := by ring
          _ ≤ 10 * 10 ^ numDigitsAux (f2 + 1) (n / 10) := Nat.mul_le_mul_left 10 hstep
          _ = 10 ^ (numDigitsAux (f2 + 1) (n / 10) + 1) := by
              rw [pow_succ, Nat.mul_comm]
      · intro _
        rw [hrec]
        have hnz : n / 10 ≠ 0 := by omega
        have h3' := h3 hnz
        have hm : 10 ^ numDigitsAux (f2 + 1) (n / 10) =
            10 * 10 ^ (numDigitsAux (f2 + 1) (n / 10) - 1) := by
          obtain ⟨m, hm⟩ : ∃ m, numDigitsAux (f2 + 1) (n / 10) = m + 1 :=
            ⟨_, (Nat.succ_pred_eq_of_pos h1).symm⟩
          rw [hm]
          simp [pow_succ, Nat.mul_comm]
        have : 10 * 10 ^ (numDigitsAux (f2 + 1) (n / 10) - 1) ≤ 10 * (n / 10) :=
          Nat.mul_le_mul_left 10 h3'
        calc 10 ^ (numDigitsAux (f2 + 1) (n / 10) + 1 - 1)
            = 10 * 10 ^ (numDigitsAux (f2 + 1) (n / 10) - 1) := by
              simpa using hm
          _ ≤ 10 * (n / 10) := this
          _ ≤ n := by omega

/-- The digit count is positive. -/
theorem numDigits_pos (n : Nat) : 0 < numDigits n :=
  (numDigitsAux_spec n n (le_refl n)).1

/-- Every natural is below `10 ^ numDigits`. -/
theorem lt_pow_numDigits (n : Nat) : n < 10 ^ numDigits n :=
  (numDigitsAux_spec n n (le_refl n)).2.1

/-- Every nonzero natural is at least `10 ^ (numDigits - 1)`. -/
theorem pow_numDigits_le (n : Nat) (h : n ≠ 0) : 10 ^ (numDigits n - 1) ≤ n :=
  (numDigitsAux_spec n n (le_refl n)).2.2 h

/-- Numbers below `10 ^ k` have at most `k` digits (for positive `k`). -/
theorem numDigits_le_of_lt_pow {n k : Nat} (hk : 0 < k) (h : n < 10 ^ k) :
    numDigits n ≤ k := by
  by_cases hn0 : n = 0
  · subst hn0
    have : numDigits 0 = 1 := rfl
    omega
  · by_contra hgt
    push_neg at hgt
    have h1 : 10 ^ k ≤ 10 ^ (numDigits n - 1) :=
      Nat.pow_le_pow_right (by norm_num) (by omega)
    have h2 := pow_numDigits_le n hn0
    omega

/-- The digit count is pinned down by the usual power sandwich. -/
theorem numDigits_eq_of {n k : Nat} (hk : 0 < k) (h1 : 10 ^ (k - 1) ≤ n)
    (h2 : n < 10 ^ k) : numDigits n = k := by
  have hn0 : n ≠ 0 := by
    have : 0 < 10 ^ (k - 1) := pow_pos (by norm_num) _
    omega
  have hle := numDigits_le_of_lt_pow hk h2
  have h3 := pow_numDigits_le n hn0
  have h4 := lt_pow_numDigits n
  rcases Nat.lt_trichotomy (numDigits n) k with hlt | heq | hgt
  · have : 10 ^ numDigits n ≤ 10 ^ (k - 1) :=
      Nat.pow_le_pow_right (by norm_num) (by omega)
    omega
  · exact heq
  · omega

/-- Unpadded digits are the `numDigits`-wide fixed rendering. -/
theorem natDigits_eq_digitsAux {n L : Nat} (h : numDigits n = L) :
    natDigits n = digitsAux L n := by
  rw [natDigits, h]

/-- Length of the unpadded digit rendering. -/
theorem natDigits_length (n : Nat) : (natDigits n).length = numDigits n :=
  digitsAux_length _ _

/-- A strict lexicographic comparison of equal-length lists survives
appending arbitrary tails. -/
theorem lexAppendLeft {l1 l2 t1 t2 : List Char} (hlen : l1.length = l2.length)
    (h : List.Lex (· < ·) l1 l2) : List.Lex (· < ·) (l1 ++ t1) (l2 ++ t2) := by
  induction h with
  | nil => simp at hlen
  | rel h => exact List.Lex.rel h
  | cons h ih => exact List.Lex.cons (ih (by simpa using hlen))

/-- A strict lexicographic comparison survives prepending a common prefix. -/
theorem lexAppendRight (l : List Char) {t1 t2 : List Char}
    (h : List.Lex (· < ·) t1 t2) : List.Lex (· < ·) (l ++ t1) (l ++ t2) := by
  induction l with
  | nil => simpa using h
  | cons a as ih => exact List.Lex.cons ih

/-- Bridge from character-list lexicographic order to `String` order. -/
theorem strMk_lt {l1 l2 : List Char} (h : List.Lex (· < ·) l1 l2) :
    String.mk l1 < String.mk l2 :=
  String.lt_iff_toList_lt.mpr h

/-- C4: for every input match set, `_do_related` requests an expansion-term
count clamped to the closed range [10, 40]: below 10 matches (including 1)
exactly 10 terms, above 40 matches (including 1000) exactly 40, and
otherwise exactly the match count. -/
theorem c4_eset_count_clamped (n : Nat) :
    (n < 10 → esetRequestCount n = 10) ∧
    (40 < n → esetRequestCount n = 40) ∧
    (10 ≤ n → n ≤ 40 → esetRequestCount n = n) := by
  unfold esetRequestCount
  dsimp only
  refine ⟨fun h => ?_, fun h => ?_, fun h1 h2 => ?_⟩
  · rw [if_pos h]
    norm_num
  · rw [if_neg (show ¬ n < 10 by omega), if_pos h]
  · rw [if_neg (show ¬ n < 10 by omega), if_neg (show ¬ n > 40 by omega)]

/-- Witness for C4 at the concrete match counts 1, 1000 and 25. -/
theorem c4_eset_count_clamped_witness :
    esetRequestCount 1 = 10 ∧ esetRequestCount 1000 = 40 ∧ esetRequestCount 25 = 25 :=
  ⟨(c4_eset_count_clamped 1).1 (by decide),
   (c4_eset_count_clamped 1000).2.1 (by decide),
   (c4_eset_count_clamped 25).2.2 (by decide) (by decide)⟩

/-- C1: contrary to the claim, a sort specification naming an unregistered
field does not raise the configuration `ValueError`: `tag_index` returns
`None` instead of raising, so the `except (ValueError, TypeError)` handler
wrapping it (`indexer.py:403-407`) never fires, and sort resolution
completes normally, passing slot `None` on to
`set_sort_by_relevance_then_value`. -/
theorem c1_unknown_order_by_raises_no_value_error :
    tagIndex exTags "unknown" = none ∧
    resolveOrderBy exTags (some "unknown") = .ok (.relevanceThenValue none true) ∧
    resolveOrderBy exTags (some "unknown") ≠ .error .valueError :=
  ⟨rfl, rfl, fun h => nomatch h⟩

/-- C2 counterexample: with the global default stemming language `"en"`, an
explicit stemming-language argument of `"none"` does not disable stemming
for the query — `_parse_query` treats `"none"` like an absent argument,
falls back to the global default, and installs an `"en"` stemmer. -/
theorem c2_explicit_none_falls_back :
    chooseQueryStemLang (some "none") "en" = "en" ∧
    stemmerApplied (chooseQueryStemLang (some "none") "en") = true ∧
    chooseQueryStemLang (some "none") "en" ≠ "none" :=
  ⟨rfl, rfl, by decide⟩

/-- C2 (amended): an explicit stemming-language argument other than `None`
or `"none"` takes priority over the per-record and global defaults; an
argument of `None` or `"none"` instead falls back to `_get_stem_language()`
evaluated without an object, which in multi-language mode yields the
no-stemming language `"none"`. -/
theorem c2_stem_language_amended (s settings : String) (hs : s ≠ "none") :
    chooseQueryStemLang (some s) settings = s ∧
    chooseQueryStemLang (some "none") settings = getStemLang settings none ∧
    chooseQueryStemLang none settings = getStemLang settings none ∧
    getStemLang "multi" none = "none" := by
  refine ⟨?_, rfl, rfl, rfl⟩
  simp [chooseQueryStemLang, hs]

/-- Witness for C2 (amended) at `s = "en"`, `settings = "fr"`. -/
theorem c2_stem_language_amended_witness :
    chooseQueryStemLang (some "en") "fr" = "en" ∧
    chooseQueryStemLang (some "none") "fr" = getStemLang "fr" none :=
  ⟨(c2_stem_language_amended "en" "fr" (by decide)).1,
   (c2_stem_language_amended "en" "fr" (by decide)).2.1⟩

/-- A string whose first character differs from `'R'` is not `"RELEVANCE"`. -/
theorem mk_cons_ne_relevance (c : Char) (cs : List Char) (hc : c ≠ 'R') :
    String.mk (c :: cs) ≠ "RELEVANCE" := by
  intro h
  have h2 : c :: cs = ['R', 'E', 'L', 'E', 'V', 'A', 'N', 'C', 'E'] :=
    congrArg String.data h
  injection h2 with h3 _
  exact hc h3

/-- C3 counterexample: sorting by the registered tag `title` makes the code
request `set_sort_by_relevance_then_value` — relevance is the primary key
and the field's value slot only the secondary one — whereas the claim (the
spec's wording, `specOrderBySort`) requires the value slot to be primary
with relevance as the tie-break; the two sort requests differ at this
input. -/
theorem c3_sort_primary_counterexample :
    resolveOrderBy exTags (some "title") = .ok (.relevanceThenValue (some 12) true) ∧
    specOrderBySort exTags (some "title") = .ok (.valueThenRelevance (some 12) true) ∧
    resolveOrderBy exTags (some "title") ≠ specOrderBySort exTags (some "title") := by
  refine ⟨rfl, rfl, fun h => ?_⟩
  have h2 : SortSpec.relevanceThenValue (some 12) true =
      SortSpec.valueThenRelevance (some 12) true := by
    injection h
  exact absurd h2 (by decide)

/-- Reduction of `resolveOrderBy` on a non-`RELEVANCE`, non-empty sort name. -/
theorem resolveOrderBy_eq (tags : List FieldSpec) (s : String) (c : Char)
    (cs : List Char) (hnR : s ≠ "RELEVANCE") (hdata : s.data = c :: cs) :
    resolveOrderBy tags (some s) =
      .ok (.relevanceThenValue
        (tagIndex tags (if c = '+' || c = '-' then String.mk cs else s))
        (!(strStartsWith s "-"))) := by
  obtain ⟨d⟩ := s
  have hd : d = c :: cs := hdata
  subst hd
  simp only [resolveOrderBy, if_neg hnR]

/-- C3 (amended): for a registered tag field, `_do_search` requests
`set_sort_by_relevance_then_value(slot, flag)` — relevance primary, the
field's encoded value slot secondary — with the flag (named `ascending` in
the code) true by default, true under a `+` prefix and false under a `-`
prefix; a sort specification of `None` or `'RELEVANCE'` requests the
engine's default relevance ranking. -/
theorem c3_sort_translation_amended (tags : List FieldSpec) (name : String)
    (v : Nat) (c : Char) (cs : List Char)
    (hfind : tagIndex tags name = some v)
    (hdata : name.data = c :: cs)
    (hc1 : c ≠ '+') (hc2 : c ≠ '-') (hcR : c ≠ 'R') :
    resolveOrderBy tags (some name) = .ok (.relevanceThenValue (some v) true) ∧
    resolveOrderBy tags (some (String.mk ('-' :: name.data))) =
      .ok (.relevanceThenValue (some v) false) ∧
    resolveOrderBy tags (some (String.mk ('+' :: name.data))) =
      .ok (.relevanceThenValue (some v) true) ∧
    resolveOrderBy tags none = .ok .byRelevance ∧
    resolveOrderBy tags (some "RELEVANCE") = .ok .byRelevance := by
  have hname : name = String.mk (c :: cs) := by rw [← hdata]
  have hc2s : '-' ≠ c := fun h => hc2 h.symm
  have hnR : name ≠ "RELEVANCE" := by
    rw [hname]
    exact mk_cons_ne_relevance c cs hcR
  have hsw : strStartsWith name "-" = false := by
    rw [hname]
    show isPrefixCL ['-'] (c :: cs) = false
    simp [isPrefixCL, hc2s]
  have hcc : (c = '+' || c = '-') = false := by simp [hc1, hc2]
  refine ⟨?_, ?_, ?_, rfl, by simp [resolveOrderBy]⟩
  · rw [resolveOrderBy_eq tags name c cs hnR hdata, hsw, hcc]
    simp only [Bool.false_eq_true, if_false, Bool.not_false]
    rw [hfind]
  · rw [resolveOrderBy_eq tags _ '-' name.data
      (mk_cons_ne_relevance '-' name.data (by decide)) rfl]
    have hsw2 : strStartsWith (String.mk ('-' :: name.data)) "-" = true := rfl
    rw [hsw2]
    have hcc2 : ('-' = '+' || '-' = '-') = true := by decide
    rw [hcc2]
    simp only [if_true]
    have hmk : String.mk name.data = name := rfl
    rw [hmk, hfind]
    rfl
  · rw [resolveOrderBy_eq tags _ '+' name.data
      (mk_cons_ne_relevance '+' name.data (by decide)) rfl]
    have hsw3 : strStartsWith (String.mk ('+' :: name.data)) "-" = false := rfl
    rw [hsw3]
    have hcc3 : ('+' = '+' || '+' = '-') = true := by decide
    rw [hcc3]
    simp only [if_true]
    have hmk : String.mk name.data = name := rfl
    rw [hmk, hfind]
    rfl

/-- Witness for C3 (amended) at the `title` tag of the example indexer. -/
theorem c3_sort_translation_amended_witness :
    resolveOrderBy exTags (some "title") = .ok (.relevanceThenValue (some 12) true) ∧
    resolveOrderBy exTags (some (String.mk ('-' :: "title".data))) =
      .ok (.relevanceThenValue (some 12) false) ∧
    resolveOrderBy exTags none = .ok .byRelevance :=
  ⟨(c3_sort_translation_amended exTags "title" 12 't' "itle".data rfl rfl
      (by decide) (by decide) (by decide)).1,
   (c3_sort_translation_amended exTags "title" 12 't' "itle".data rfl rfl
      (by decide) (by decide) (by decide)).2.1,
   (c3_sort_translation_amended exTags "title" 12 't' "itle".data rfl rfl
      (by decide) (by decide) (by decide)).2.2.2.1⟩

/-- C5 counterexample: with tags `AUTHOR` and `DATE` registered (in that
order), the engine term `AUTHORDATEX` yields *two* tokens — the remainder
`DATEX` after stripping `AUTHOR`, and then `X` after `DATE` also strips the
re-bound remainder — whereas the claim's per-term single stripped token
(spec wording, `specRelatedTokens`) yields only `DATEX`; the resulting
disjunctive query is `DATEX OR X`. -/
theorem c5_related_terms_counterexample :
    relatedTokens (tagStrings exTags5) ["AUTHORDATEX"] = ["DATEX", "X"] ∧
    specRelatedTokens (tagStrings exTags5) ["AUTHORDATEX"] = ["DATEX"] ∧
    relatedTokens (tagStrings exTags5) ["AUTHORDATEX"] ≠
      specRelatedTokens (tagStrings exTags5) ["AUTHORDATEX"] ∧
    relatedQuery (tagStrings exTags5) ["AUTHORDATEX"] = "DATEX OR X" :=
  ⟨by decide, by decide, by decide, by decide⟩

/-- C5 (amended): each all-lowercase term is kept verbatim as a free-text
token; every other term contributes one stripped token per registered tag
whose uppercase tag string starts the *current* remainder, stripping
cumulatively in tag-declaration order (so one term can contribute several
tokens, and a term starting with no tag contributes none); the token list is
then de-duplicated and joined with `' OR '`. -/
theorem c5_related_tokens_amended (tags : List String) (qterms : List String) :
    relatedTokens tags qterms =
      qterms.flatMap (fun t => if pyIsLower t then [t] else cascadeStrips tags t) ∧
    relatedQuery tags qterms =
      joinWith " OR " (dedupFirst
        (qterms.flatMap (fun t => if pyIsLower t then [t] else cascadeStrips tags t))) := by
  have hstrip : ∀ (ts : List String) (acc : List String) (t : String),
      (ts.foldl
        (fun acc tag =>
          if strStartsWith acc.2 tag then
            ((acc.1 ++ [strDrop acc.2 tag.length]), strDrop acc.2 tag.length)
          else acc)
        (acc, t)).1 = acc ++ cascadeStrips ts t := by
    intro ts
    induction ts with
    | nil => intro acc t; simp [cascadeStrips]
    | cons tag rest ih =>
      intro acc t
      by_cases h : strStartsWith t tag = true
      · simp [List.foldl_cons, h, cascadeStrips, ih]
      · simp [List.foldl_cons, h, cascadeStrips, ih]
  have hloop : ∀ t : String, (stripTagsLoop tags t).1 = cascadeStrips tags t := by
    intro t
    have := hstrip tags [] t
    simpa [stripTagsLoop] using this
  have houter : ∀ (qs : List String) (acc : List String),
      qs.foldl
        (fun q t => if pyIsLower t then q ++ [t] else q ++ (stripTagsLoop tags t).1) acc =
        acc ++ qs.flatMap (fun t => if pyIsLower t then [t] else cascadeStrips tags t) := by
    intro qs
    induction qs with
    | nil => intro acc; simp
    | cons t rest ih =>
      intro acc
      by_cases h : pyIsLower t = true
      · rw [List.foldl_cons, ih]
        simp [h, List.flatMap_cons]
      · rw [List.foldl_cons, ih]
        simp [h, hloop, List.flatMap_cons]
  have htok : relatedTokens tags qterms =
      qterms.flatMap (fun t => if pyIsLower t then [t] else cascadeStrips tags t) := by
    have := houter qterms []
    simpa [relatedTokens] using this
  exact ⟨htok, by rw [relatedQuery, htok]⟩

/-- Path walking splits across list concatenation. -/
theorem walkPath_append (l1 l2 : List String) (v : PyVal) :
    walkPath (l1 ++ l2) v =
      match walkPath l1 v with
      | .ok v1 => walkPath l2 v1
      | .error e => .error e := by
  induction l1 generalizing v with
  | nil => rfl
  | cons b rest ih =>
    show walkPath (b :: (rest ++ l2)) v = _
    simp only [walkPath]
    cases pyGetattr v b with
    | none => rfl
    | some v1 => exact ih (callStep v1)

/-- Mapping string values through `mapStrs` recovers the strings. -/
theorem mapStrs_map_vStr : ∀ ss : List String,
    mapStrs (ss.map PyVal.vStr) = some ss := by
  intro ss
  induction ss with
  | nil => rfl
  | cons a rest ih => simp [mapStrs, strOf, ih]

/-- A list containing a non-string element fails `mapStrs`. -/
theorem mapStrs_none : ∀ xs : List PyVal,
    (∃ x ∈ xs, strOf x = none) → mapStrs xs = none := by
  intro xs
  induction xs with
  | nil =>
    rintro ⟨x, hx, _⟩
    cases hx
  | cons a rest ih =>
    rintro ⟨x, hx, hnone⟩
    rcases List.mem_cons.mp hx with rfl | hmem
    · simp [mapStrs, hnone]
    · cases ha : strOf a with
      | none => simp [mapStrs, ha]
      | some s => simp [mapStrs, ha, ih ⟨x, hmem, hnone⟩]

/-- C7 counterexample: a field resolving to a list of integers is *not*
flattened to a comma-joined text value — `', '.join` raises `TypeError`,
which the update loop's bare `except` treats as a record failure, not a
field skip. -/
theorem c7_resolve_iterable_counterexample :
    resolveField ⟨"xs", 1, "", none⟩ (.vModel "e" [("xs", .vList [.vInt 1])]) =
      .error .typeError ∧
    (∀ s, resolveField ⟨"xs", 1, "", none⟩ (.vModel "e" [("xs", .vList [.vInt 1])]) ≠
      .ok (.vStr s)) ∧
    indexField [] (.vModel "e" [("xs", .vList [.vInt 1])]) ⟨[], [], []⟩
      ⟨"xs", 1, "", none⟩ = .error () := by
  refine ⟨rfl, ?_, rfl⟩
  intro s h
  have h2 : (Except.error ResolveErr.typeError : Except ResolveErr PyVal) =
      .ok (.vStr s) := h
  exact Except.noConfusion h2

/-- C7 (amended): walking the dotted path fails with `AttributeError`
exactly when some segment is absent, and the write path turns that into a
silent field skip; an iterable of *text* values resolves to the comma-joined
string, while an iterable containing any non-text element raises `TypeError`
(a record failure rather than a skip); values of unrecognized shape resolve
to no value (`None`). -/
theorem c7_resolve_amended :
    (∀ (f : FieldSpec) (obj : PyVal) (l1 l2 : List String) (b : String) (v : PyVal),
      splitDots f.path = l1 ++ b :: l2 → walkPath l1 obj = .ok v →
      pyGetattr v b = none → resolveField f obj = .error .attrMissing) ∧
    (∀ (mt : List (String × MFT)) (obj : PyVal) (doc : Doc) (f : FieldSpec),
      resolveField f obj = .error .attrMissing → indexField mt obj doc f = .ok doc) ∧
    (∀ ss : List String, classifyValue (.vList (ss.map PyVal.vStr)) =
      .ok (.vStr (joinWith ", " ss))) ∧
    (∀ xs : List PyVal, (∃ x ∈ xs, strOf x = none) →
      classifyValue (.vList xs) = .error .typeError) ∧
    (∀ attrs, classifyValue (.vPlain attrs) = .ok .vNone) ∧
    (∀ v, classifyValue (.vCallable v) = .ok .vNone) ∧
    classifyValue .vNone = .ok .vNone := by
  refine ⟨?_, ?_, ?_, ?_, fun _ => rfl, fun _ => rfl, rfl⟩
  · intro f obj l1 l2 b v hsplit hwalk hget
    unfold resolveField
    rw [hsplit, walkPath_append, hwalk]
    simp [walkPath, hget]
  · intro mt obj doc f h
    unfold indexField
    rw [h]
  · intro ss
    simp [classifyValue, joinStrs, mapStrs_map_vStr]
  · intro xs h
    simp [classifyValue, joinStrs, mapStrs_none xs h]

/-- Witness for C7 (amended): a missing `name` attribute under `author` is
an `AttributeError` that the write path turns into a field skip; string
iterables join; an integer element raises. -/
theorem c7_resolve_amended_witness :
    resolveField ⟨"author.name", 1, "", none⟩
      (.vModel "e" [("author", .vModel "p" [])]) = .error .attrMissing ∧
    indexField [] (.vModel "e" [("author", .vModel "p" [])]) ⟨[], [], []⟩
      ⟨"author.name", 1, "", none⟩ = .ok ⟨[], [], []⟩ ∧
    classifyValue (.vList (["a", "b"].map PyVal.vStr)) =
      .ok (.vStr (joinWith ", " ["a", "b"])) ∧
    classifyValue (.vList [.vInt 1]) = .error .typeError ∧
    classifyValue (.vPlain []) = .ok .vNone :=
  ⟨c7_resolve_amended.1 ⟨"author.name", 1, "", none⟩
      (.vModel "e" [("author", .vModel "p" [])]) ["author"] [] "name"
      (.vModel "p" []) rfl rfl rfl,
   c7_resolve_amended.2.1 [] (.vModel "e" [("author", .vModel "p" [])]) ⟨[], [], []⟩
      ⟨"author.name", 1, "", none⟩
      (c7_resolve_amended.1 ⟨"author.name", 1, "", none⟩
        (.vModel "e" [("author", .vModel "p" [])]) ["author"] [] "name"
        (.vModel "p" []) rfl rfl rfl),
   c7_resolve_amended.2.2.1 ["a", "b"],
   c7_resolve_amended.2.2.2.1 [.vInt 1] ⟨.vInt 1, by simp, rfl⟩,
   c7_resolve_amended.2.2.2.2.1 []⟩

/-- A successful alias validation returns the declarations unchanged, and
certifies that every declared tag exists. -/
theorem checkAliases_ok_sound :
    ∀ (tags : List FieldSpec) (decls res : List (String × List String)),
      checkAliases tags decls = .ok res →
      res = decls ∧ ∀ d ∈ decls, hasTag tags d.1 = true := by
  intro tags decls
  induction decls with
  | nil =>
    intro res h
    have h2 : (Except.ok [] : Except String (List (String × List String))) = .ok res := h
    injection h2 with h3
    exact ⟨h3.symm, fun d hd => absurd hd (List.not_mem_nil d)⟩
  | cons d rest ih =>
    intro res h
    obtain ⟨t, as⟩ := d
    unfold checkAliases at h
    by_cases ht : hasTag tags t
    · rw [if_pos ht] at h
      cases hrest : checkAliases tags rest with
      | error e => rw [hrest] at h; exact absurd h (by simp [Except.map])
      | ok r =>
        rw [hrest] at h
        simp only [Except.map] at h
        injection h with h2
        obtain ⟨hr, hall⟩ := ih r hrest
        subst hr
        refine ⟨h2.symm, fun d2 hd2 => ?_⟩
        rcases List.mem_cons.mp hd2 with rfl | hmem
        · exact ht
        · exact hall d2 hmem
    · rw [if_neg ht] at h
      exact absurd h (by simp)

/-- Looking up a key present in a list whose keys are distinct finds its
value. -/
theorem lookup_of_mem_nodup :
    ∀ (decls : List (String × List String)) (t : String) (as : List String),
      (t, as) ∈ decls → (decls.map Prod.fst).Nodup →
      List.lookup t decls = some as := by
  intro decls
  induction decls with
  | nil => intro t as h _; cases h
  | cons d rest ih =>
    intro t as hmem hnd
    obtain ⟨t2, as2⟩ := d
    rw [List.map_cons] at hnd
    have hnd2 := List.nodup_cons.mp hnd
    rcases List.mem_cons.mp hmem with heq | hmem2
    · injection heq with h1 h2
      subst h1
      subst h2
      simp [List.lookup]
    · have hne : (t == t2) = false := by
        cases h2 : (t == t2) with
        | false => rfl
        | true =>
          have heq2 : t = t2 := eq_of_beq h2
          have hm : t ∈ rest.map Prod.fst := List.mem_map.mpr ⟨(t, as), hmem2, rfl⟩
          rw [heq2] at hm
          exact absurd hm hnd2.1
      simp only [List.lookup, hne]
      exact ih t as hmem2 hnd2.2

/-- C10: declaring an alias for a tag name that is not a registered tag
prefix makes indexer construction fail with a `ValueError`; and after a
successful validation every alias of an existing tag is registered with the
query parser as an additional queryable name mapping to the tag's uppercase
prefix. -/
theorem c10_alias_validation :
    (∀ (tags : List FieldSpec) (decls : List (String × List String)),
      (∃ d ∈ decls, hasTag tags d.1 = false) →
      ∀ res, checkAliases tags decls ≠ .ok res) ∧
    (∀ (tags : List FieldSpec) (decls res : List (String × List String))
      (t : String) (as : List String) (a : String),
      checkAliases tags decls = .ok res → (decls.map Prod.fst).Nodup →
      (t, as) ∈ decls → a ∈ as →
      (a, strUpper t) ∈ registeredPrefixes tags res) := by
  constructor
  · rintro tags decls ⟨d, hd, hfalse⟩ res h
    have := (checkAliases_ok_sound tags decls res h).2 d hd
    rw [this] at hfalse
    exact absurd hfalse (by simp)
  · intro tags decls res t as a h hnd hmem ha
    obtain ⟨hres, hall⟩ := checkAliases_ok_sound tags decls res h
    subst hres
    have htag : hasTag tags t = true := hall (t, as) hmem
    unfold hasTag at htag
    unfold tagIndex at htag
    cases hfind : tags.find? (fun f => f.pref == t) with
    | none => rw [hfind] at htag; exact absurd htag (by simp)
    | some f =>
      have hf_mem : f ∈ tags := List.mem_of_find?_eq_some hfind
      have hf_pref : f.pref = t := by
        have := List.find?_some hfind
        exact eq_of_beq (by simpa using this)
      refine List.mem_flatMap.mpr ⟨f, hf_mem, ?_⟩
      rw [hf_pref]
      have hlook : List.lookup t res = some as := lookup_of_mem_nodup res t as hmem hnd
      rw [hlook]
      exact List.mem_cons_of_mem _ (List.mem_map.mpr ⟨a, ha, rfl⟩)

/-- Witness for C10: an alias for the unregistered tag `missing` is
rejected; the alias `user` of the registered tag `author` is registered as
a queryable name for the `AUTHOR` prefix. -/
theorem c10_alias_validation_witness :
    checkAliases exTags [("missing", ["user"])] ≠ .ok [("missing", ["user"])] ∧
    ("user", strUpper "author") ∈
      registeredPrefixes exTags [("author", ["user"])] :=
  ⟨c10_alias_validation.1 exTags [("missing", ["user"])]
      ⟨("missing", ["user"]), by simp, rfl⟩ [("missing", ["user"])],
   c10_alias_validation.2 exTags [("author", ["user"])] [("author", ["user"])]
      "author" ["user"] "user" rfl (by simp) (by simp) (by simp)⟩

/-- The update loop's result at any key is the last effect a record of the
list has on it, or the old content when none touches it. -/
theorem updateRun_lastEffect (idx : IndexerModel) :
    ∀ (rs : List (String × PyVal)) (db : DB) (k : String),
      updateRun idx db rs k =
        match lastEffect idx rs k with
        | some e => e
        | none => db k := by
  intro rs
  induction rs with
  | nil => intro db k; rfl
  | cons r rest ih =>
    intro db k
    show updateRun idx (updateStep idx db r) rest k = _
    rw [ih]
    cases hle : lastEffect idx rest k with
    | some e => simp [lastEffect, hle]
    | none =>
      simp only [lastEffect, hle]
      unfold updateStep
      cases hre : recEffect idx r.1 r.2 with
      | some e =>
        by_cases hk : k = uidOf idx r.1
        · simp [hk]
        · simp [hk]
      | none =>
        by_cases hk : k = uidOf idx r.1
        · simp [hk, hre]
        · simp [hk, hre]

/-- C8: the write path's document UID is the deterministic string
`"UID-" ++ pk ++ "-" ++ modelName ++ "-" ++ descriptor`, and because each
record's document is replaced under that UID, re-running `update` over the
same record list changes nothing: every stored document — hence every value
slot, byte for byte — is identical, and the document count over any
enumeration of UIDs is unchanged. -/
theorem c8_update_idempotent (idx : IndexerModel) (db : DB)
    (rs : List (String × PyVal)) :
    (∀ pk, uidOf idx pk =
      "UID-" ++ pk ++ "-" ++ idx.modelName ++ "-" ++ idx.descriptor) ∧
    (∀ k, updateRun idx (updateRun idx db rs) rs k = updateRun idx db rs k) ∧
    (∀ ks : List String, countOn (updateRun idx (updateRun idx db rs) rs) ks =
      countOn (updateRun idx db rs) ks) := by
  have hpoint : ∀ k, updateRun idx (updateRun idx db rs) rs k = updateRun idx db rs k := by
    intro k
    rw [updateRun_lastEffect idx rs, updateRun_lastEffect idx rs]
    cases hle : lastEffect idx rs k with
    | some e => rfl
    | none => rfl
  refine ⟨fun pk => ?_, hpoint, fun ks => ?_⟩
  · show "UID-" ++ joinWith "-" [pk, idx.modelName, idx.descriptor] = _
    simp only [joinWith]
    simp [String.append_assoc]
  · unfold countOn
    congr 1
    apply List.filter_congr
    intro k _
    rw [hpoint k]

/-- Counting documents over a cons of keys splits off the head's
contribution. -/
theorem countOn_cons (db : DB) (a : String) (t : List String) :
    countOn db (a :: t) = (if (db a).isSome then 1 else 0) + countOn db t := by
  unfold countOn
  rw [List.filter_cons]
  by_cases h : (db a).isSome = true
  · rw [if_pos h, if_pos h, List.length_cons]
    omega
  · rw [if_neg h, if_neg h]
    omega

/-- Document counts agree on keys where the databases agree. -/
theorem countOn_congr (db1 db2 : DB) (ks : List String)
    (h : ∀ k ∈ ks, db1 k = db2 k) : countOn db1 ks = countOn db2 ks := by
  unfold countOn
  congr 1
  apply List.filter_congr
  intro k hk
  rw [h k hk]

/-- Erasing a present key from the database drops the count over any
duplicate-free key enumeration containing it by exactly one. -/
theorem countOn_erase (db : DB) (u : String) (d : Doc) (hd : db u = some d) :
    ∀ ks : List String, ks.Nodup → u ∈ ks →
      countOn (fun k => if k = u then none else db k) ks + 1 = countOn db ks := by
  intro ks
  induction ks with
  | nil => intro _ h; cases h
  | cons a t ih =>
    intro hnd hmem
    have hnd2 := List.nodup_cons.mp hnd
    rw [countOn_cons, countOn_cons]
    rcases List.mem_cons.mp hmem with heq | hmem2
    · subst heq
      have hcongr : countOn (fun k => if k = u then none else db k) t = countOn db t := by
        apply countOn_congr
        intro k hk
        have hku : k ≠ u := fun hku => hnd2.1 (hku ▸ hk)
        simp [hku]
      have e1 : (if u = u then (none : Option Doc) else db u) = none := if_pos rfl
      rw [hcongr, e1, hd]
      norm_num
      omega
    · have hau : a ≠ u := fun hau2 => hnd2.1 (hau2 ▸ hmem2)
      have e2 : (if a = u then (none : Option Doc) else db a) = db a := if_neg hau
      rw [e2]
      have := ih hnd2.2 hmem2
      omega

/-- C9: when the trigger predicate evaluates to false for a record, the
update loop deletes any existing document under the record's UID and moves
on without building a document; for a record whose document is present this
decreases the document count over any duplicate-free UID enumeration by
exactly one. -/
theorem c9_trigger_false_deletes (idx : IndexerModel) (db : DB) (pk : String)
    (obj : PyVal) (d : Doc) (htrig : idx.trigger obj = false)
    (hdb : db (uidOf idx pk) = some d) :
    updateStep idx db (pk, obj) = (fun k => if k = uidOf idx pk then none else db k) ∧
    updateRun idx db [(pk, obj)] (uidOf idx pk) = none ∧
    (∀ ks : List String, ks.Nodup → uidOf idx pk ∈ ks →
      countOn (updateRun idx db [(pk, obj)]) ks + 1 = countOn db ks) := by
  have hre : recEffect idx pk obj = some none := by
    unfold recEffect
    rw [htrig]
    rfl
  have hstep : updateStep idx db (pk, obj) =
      (fun k => if k = uidOf idx pk then none else db k) := by
    unfold updateStep
    rw [hre]
  have hrun : updateRun idx db [(pk, obj)] =
      (fun k => if k = uidOf idx pk then none else db k) := hstep
  refine ⟨hstep, ?_, ?_⟩
  · rw [hrun]
    simp
  · intro ks hnd hmem
    rw [hrun]
    exact countOn_erase db (uidOf idx pk) d hdb ks hnd hmem

/-- Witness for C9: a one-document database whose record's trigger is
false loses exactly that document. -/
theorem c9_trigger_false_deletes_witness :
    updateRun exIdx9 exDb [("1", .vNone)] (uidOf exIdx9 "1") = none ∧
    countOn (updateRun exIdx9 exDb [("1", .vNone)]) [uidOf exIdx9 "1"] + 1 =
      countOn exDb [uidOf exIdx9 "1"] :=
  ⟨(c9_trigger_false_deletes exIdx9 exDb "1" .vNone exDoc rfl
      (by simp [exDb])).2.1,
   (c9_trigger_false_deletes exIdx9 exDb "1" .vNone exDoc rfl
      (by simp [exDb])).2.2 [uidOf exIdx9 "1"] (by simp) (by simp)⟩

/-- The non-negative branch of `'%012d'` is the 12-wide zero-padded digit
rendering, for integers below `10 ^ 12`. -/
theorem pyFormat012_eq_digitsAux (i : Nat) (hi : i < 10 ^ 12) :
    pyFormat012 (Int.ofNat i) = String.mk (digitsAux 12 i) ∧
    (pyFormat012 (Int.ofNat i)).length = 12 := by
  have hneg : ¬ ((Int.ofNat i) < 0) := by
    simp
  have habs : (Int.ofNat i).natAbs = i := Int.natAbs_ofNat i
  have hnd : numDigits i ≤ 12 := numDigits_le_of_lt_pow (by norm_num) hi
  have hpad : digitsAux 12 i =
      List.replicate (12 - numDigits i) '0' ++ digitsAux (numDigits i) i :=
    digitsAux_pad 12 (numDigits i) i hnd (lt_pow_numDigits i)
  have hmain : pyFormat012 (Int.ofNat i) =
      String.mk (List.replicate (12 - numDigits i) '0' ++ digitsAux (numDigits i) i) := by
    unfold pyFormat012
    rw [if_neg hneg, habs]
    rw [natDigits_length]
    rfl
  constructor
  · rw [hmain, hpad]
  · rw [hmain]
    show (List.replicate (12 - numDigits i) '0' ++ digitsAux (numDigits i) i).length = 12
    rw [List.length_append, List.length_replicate, digitsAux_length]
    omega

/-- Strict order on equal-width digit blocks extends across appended tails. -/
theorem digit_block_lt (L a1 a2 : Nat) (t1 t2 : List Char) (h : a1 < a2)
    (hb : a2 < 10 ^ L) :
    List.Lex (· < ·) (digitsAux L a1 ++ t1) (digitsAux L a2 ++ t2) :=
  lexAppendLeft (by rw [digitsAux_length, digitsAux_length]) (digitsAux_lex L a1 a2 h hb)

/-- C6 counterexample: `'%.10f'` fixes ten decimal places but does not pad
the integer part, so the encoded float values of 2.0 and 10.0 compare in
the wrong order: 2 < 10 yet `encode 10 < encode 2` byte-lexicographically. -/
theorem c6_float_order_counterexample :
    convert [("rating", MFT.floatField)] "rating" (.vFloat 2 0) =
      .ok (.vStr (pyFormatF10 2 0)) ∧
    pyFormatF10 2 0 = "2.0000000000" ∧
    convert [("rating", MFT.floatField)] "rating" (.vFloat 10 0) =
      .ok (.vStr (pyFormatF10 10 0)) ∧
    pyFormatF10 10 0 = "10.0000000000" ∧
    (2 : Nat) < 10 ∧
    ¬ (pyFormatF10 2 0 < pyFormatF10 10 0) ∧
    pyFormatF10 10 0 < pyFormatF10 2 0 := by
  refine ⟨rfl, by decide, rfl, by decide, by decide, ?_, ?_⟩
  · rw [String.lt_iff_toList_lt]
    decide
  · rw [String.lt_iff_toList_lt]
    decide

/-- C6 (amended): integer sort values are 12-character zero-padded decimal
strings whose byte-lexicographic order agrees with numeric order below
`10^12`; boolean fields encode to the single characters `'t'`/`'f'`;
datetimes encode to fixed-width 14-character `YYYYMMDDHHMMSS` preserving
chronological order; float sort values fix ten decimal places but leave the
integer part unpadded, so their order is preserved only among values whose
integer parts have equally many decimal digits. -/
theorem c6_sort_encoding_amended :
    (∀ i1 i2 : Nat, i1 < i2 → i2 < 10 ^ 12 →
      convert [("n", MFT.integerField)] "n" (.vInt (Int.ofNat i1)) =
        .ok (.vStr (pyFormat012 (Int.ofNat i1))) ∧
      (pyFormat012 (Int.ofNat i1)).length = 12 ∧
      pyFormat012 (Int.ofNat i1) < pyFormat012 (Int.ofNat i2)) ∧
    (∀ b : Bool, convert [("b", MFT.booleanField)] "b" (.vBool b) =
      .ok (.vStr (if b then "t" else "f"))) ∧
    (∀ dt1 dt2 : PyDateTime, dtBounds dt1 → dtBounds dt2 → dtLexLt dt1 dt2 →
      convert [("d", MFT.dateTimeField)] "d" (.vDateTime dt1) =
        .ok (.vStr (dtFormat dt1)) ∧
      (dtFormat dt1).length = 14 ∧
      dtFormat dt1 < dtFormat dt2) ∧
    (∀ ip1 fr1 ip2 fr2 : Nat, numDigits ip1 = numDigits ip2 → fr2 < 10 ^ 10 →
      (ip1 < ip2 ∨ (ip1 = ip2 ∧ fr1 < fr2)) →
      pyFormatF10 ip1 fr1 < pyFormatF10 ip2 fr2) := by
  have hyear : ∀ dt : PyDateTime, dtBounds dt → natDigits dt.year = digitsAux 4 dt.year := by
    intro dt hb
    apply natDigits_eq_digitsAux
    exact numDigits_eq_of (by norm_num) (by simpa using hb.1)
      (by simpa using hb.2.1)
  refine ⟨?_, ?_, ?_, ?_⟩
  · intro i1 i2 h12 h2
    obtain ⟨he1, hl1⟩ := pyFormat012_eq_digitsAux i1 (lt_trans h12 h2)
    obtain ⟨he2, _⟩ := pyFormat012_eq_digitsAux i2 h2
    refine ⟨rfl, hl1, ?_⟩
    rw [he1, he2]
    exact strMk_lt (digitsAux_lex 12 i1 i2 h12 h2)
  · intro b
    cases b <;> rfl
  · intro dt1 dt2 hb1 hb2 hlt
    refine ⟨rfl, ?_, ?_⟩
    · show (natDigits dt1.year ++ _).length = 14
      rw [hyear dt1 hb1]
      simp only [List.length_append, digitsAux_length]
    · unfold dtFormat
      rw [hyear dt1 hb1, hyear dt2 hb2]
      apply strMk_lt
      obtain ⟨_, hy2, hmo2, hd2, hh2, hmi2, hs2⟩ := hb2
      rcases hlt with hy | ⟨hy, hrest⟩
      · exact digit_block_lt 4 _ _ _ _ hy (by simpa using hy2)
      · rw [hy]
        apply lexAppendRight
        rcases hrest with hmo | ⟨hmo, hrest⟩
        · exact digit_block_lt 2 _ _ _ _ hmo (by simpa using hmo2)
        · rw [hmo]
          apply lexAppendRight
          rcases hrest with hd | ⟨hd, hrest⟩
          · exact digit_block_lt 2 _ _ _ _ hd (by simpa using hd2)
          · rw [hd]
            apply lexAppendRight
            rcases hrest with hh | ⟨hh, hrest⟩
            · exact digit_block_lt 2 _ _ _ _ hh (by simpa using hh2)
            · rw [hh]
              apply lexAppendRight
              rcases hrest with hmi | ⟨hmi, hs⟩
              · exact digit_block_lt 2 _ _ _ _ hmi (by simpa using hmi2)
              · rw [hmi]
                apply lexAppendRight
                exact digitsAux_lex 2 _ _ hs (by simpa using hs2)
  · intro ip1 fr1 ip2 fr2 hnd hfr2 hlt
    unfold pyFormatF10
    apply strMk_lt
    rcases hlt with hip | ⟨hip, hfr⟩
    · have h1 : natDigits ip1 = digitsAux (numDigits ip2) ip1 := by
        rw [natDigits, hnd]
      have h2 : natDigits ip2 = digitsAux (numDigits ip2) ip2 := rfl
      rw [h1, h2]
      exact digit_block_lt _ _ _ _ _ hip (lt_pow_numDigits ip2)
    · rw [hip]
      apply lexAppendRight
      exact List.Lex.cons (digitsAux_lex 10 _ _ hfr hfr2)

/-- Witness for C6 (amended) at concrete integers, booleans, datetimes and
floats. -/
theorem c6_sort_encoding_amended_witness :
    pyFormat012 (Int.ofNat 3) < pyFormat012 (Int.ofNat 7) ∧
    convert [("b", MFT.booleanField)] "b" (.vBool false) =
      .ok (.vStr (if false then "t" else "f")) ∧
    dtFormat ⟨2020, 1, 2, 3, 4, 5⟩ < dtFormat ⟨2021, 1, 2, 3, 4, 5⟩ ∧
    pyFormatF10 2 5 < pyFormatF10 3 0 :=
  ⟨(c6_sort_encoding_amended.1 3 7 (by norm_num) (by norm_num)).2.2,
   c6_sort_encoding_amended.2.1 false,
   (c6_sort_encoding_amended.2.2.1 ⟨2020, 1, 2, 3, 4, 5⟩ ⟨2021, 1, 2, 3, 4, 5⟩
      (by refine ⟨?_, ?_, ?_, ?_, ?_, ?_, ?_⟩ <;> norm_num)
      (by refine ⟨?_, ?_, ?_, ?_, ?_, ?_, ?_⟩ <;> norm_num)
      (by left; norm_num)).2.2,
   c6_sort_encoding_amended.2.2.2 2 5 3 0 (by decide) (by norm_num)
      (by left; norm_num)⟩
